import Mathlib

/-!
# Verification of the query-answering core of `ai-knowledge-console`

A shallow embedding, in Lean 4, of the algorithmic core of the backend:

* `DocumentProcessor.chunk_text` (`backend/services/document_processor.py`)
* `ConversationService` (`backend/services/conversation_service.py`)
* `LLMService.generate` and `LLMService.build_rag_prompt`
  (`backend/services/llm_service.py`)
* `_fetch_tool_data`, `chat_query` and `websocket_chat`
  (`backend/routers/chat.py`)
* `VectorStoreService.search` (`backend/services/vector_store.py`)

Python strings are embedded as `List Char`, Python integers as `Int`
(`Nat` where the source can never go negative), SQL/HTTP side effects as
explicit state passing, and fallible operations as `Option`/`Except`.
The `while` loop of `chunk_text` is embedded with an explicit fuel
parameter, because — as proved below — it does not terminate for every
configuration the spec admits.
-/

namespace AKC

/-! ## Python primitives used by the embedding -/

/-- Normalise one bound of a Python slice `s[a:b]` over a sequence of
length `n`: negative indices count from the end and are clamped at `0`,
positive indices are clamped at `n`. -/
def pyBound (n : Nat) (i : Int) : Nat :=
  if i < 0 then (i + n).toNat else min i.toNat n

/-- Python slice `l[a:b]` with `Int` bounds (step 1). -/
def pySlice (l : List Char) (a b : Int) : List Char :=
  (l.take (pyBound l.length b)).drop (pyBound l.length a)

/-- Python whitespace for `str.strip()` (the ASCII part, which is all the
chunker's inputs can contain at the points we evaluate it). -/
def pySpace (c : Char) : Bool :=
  c = ' ' || c = '\t' || c = '\n' || c = '\r' || c = '\x0b' || c = '\x0c'

/-- Python `str.strip()`: drop leading and trailing whitespace. -/
def pyStrip (l : List Char) : List Char :=
  ((l.dropWhile pySpace).reverse.dropWhile pySpace).reverse

/-- Does the two-character pattern `". "` occur at position `i` of `l`? -/
def sentinelAt (l : List Char) (i : Nat) : Bool :=
  match l.drop i with
  | '.' :: ' ' :: _ => true
  | _ => false

/-- Python `chunk.rfind(". ")`: index of the last occurrence of `". "`,
`-1` when there is none. -/
def rfindSentinel (l : List Char) : Int :=
  match ((List.range l.length).filter (sentinelAt l)).getLast? with
  | some i => (i : Int)
  | none => -1

/-! ## `DocumentProcessor.chunk_text`

`backend/services/document_processor.py`, lines 35–68.  The settings
`chunk_size` / `chunk_overlap` are the parameters `S` / `O`; the loop
variable `start` is an `Int` because `start = end - overlap` can go
negative when the sentence-boundary shrink pulls `end` below `overlap`.
The loop is given explicit fuel; `none` means the fuel ran out. -/

/-- Metadata record appended for each chunk (the `metadata.append` dict). -/
structure ChunkMeta where
  filename : String
  chunk_index : Nat
  start_char : Int
deriving Repr, DecidableEq

/-- The loop body of `chunk_text` up to the two appends: from the window
start, compute the kept chunk and the final value of `end`.  Faithful to
the source: `end = start + chunk_size`; `chunk = text[start:end]`; if
`end < len(text)` and `chunk.rfind(". ") > chunk_size // 2` then the chunk
is cut just after the terminator and `end` is pulled back to
`start + last_period + 1`. -/
def chunkCut (text : List Char) (S : Nat) (start : Int) : List Char × Int :=
  let e0 : Int := start + (S : Int)
  let chunk0 := pySlice text start e0
  if e0 < (text.length : Int) then
    let lp := rfindSentinel chunk0
    if lp > ((S / 2 : Nat) : Int) then
      (chunk0.take (lp + 1).toNat, start + lp + 1)
    else (chunk0, e0)
  else (chunk0, e0)

/-- One execution of the `while start < len(text)` loop of `chunk_text`,
with fuel: the stripped chunk and its metadata are appended and the window
start is advanced to `end - overlap`.  `none` means the fuel ran out. -/
def chunkLoop (text : List Char) (S O : Nat) (fname : String) :
    Nat → Int → Nat → Option (List (List Char) × List ChunkMeta)
  | 0, _, _ => none
  | fuel + 1, start, idx =>
    if start < (text.length : Int) then
      let p := chunkCut text S start
      match chunkLoop text S O fname fuel (p.2 - (O : Int)) (idx + 1) with
      | none => none
      | some (cs, ms) => some (pyStrip p.1 :: cs, ⟨fname, idx, start⟩ :: ms)
    else
      some ([], [])

/-- `DocumentProcessor.chunk_text(text, filename)` with chunking settings
`S` (`chunk_size`) and `O` (`chunk_overlap`), run with the given fuel. -/
def chunk_text (text : List Char) (S O : Nat) (fname : String) (fuel : Nat) :
    Option (List (List Char) × List ChunkMeta) :=
  chunkLoop text S O fname fuel 0 0

/-- Claim C2 as stated: for every text and every configuration with
`O < S`, the `chunk_text` loop terminates (some amount of fuel makes it
finish). -/
def ChunkTerminatesClaim : Prop :=
  ∀ (text : List Char) (S O : Nat) (fname : String), O < S →
    ∃ fuel, (chunk_text text S O fname fuel).isSome

/-- Claim C7 as stated: for every text and every configuration with
`O < S`, whenever `chunk_text` returns, chunks and metadata have equal
length and the recorded `start_char` values are non-decreasing. -/
def ChunkAlignedClaim : Prop :=
  ∀ (text : List Char) (S O : Nat) (fname : String) (fuel : Nat)
    (r : List (List Char) × List ChunkMeta), O < S →
    chunk_text text S O fname fuel = some r →
    r.1.length = r.2.length ∧ (r.2.map ChunkMeta.start_char).Chain' (· ≤ ·)

/-! ## `ConversationService`

`backend/services/conversation_service.py`.  The SQLite tables are
embedded as lists kept in insertion (rowid) order; `created_at` values
are supplied by the caller (they stand for `CURRENT_TIMESTAMP`, whose
resolution is one second, so consecutive writes frequently collide).

`get_history` runs `SELECT … ORDER BY created_at DESC LIMIT ?` and then
reverses in Python.  SQLite gives no ordering guarantee between rows with
equal `created_at`; the repository's own unit tests
(`test_conversation_service.py::test_get_history`) document what the
shipped database actually does — rows with equal timestamps come back
from the DESC read still in rowid (insertion) order, i.e. the read is a
*stable* descending sort on `created_at` alone.  The embedding below uses
exactly that stable sort. -/

/-- One row of the `messages` table. -/
structure Msg where
  rowid : Nat
  conversation_id : String
  role : String
  content : String
  created_at : Nat
deriving Repr, DecidableEq

/-- The conversation store: `conversations` and `messages` tables plus the
`AUTOINCREMENT` counter.  `msgs` is kept in rowid (insertion) order. -/
structure ConvDB where
  conversations : List String
  msgs : List Msg
  next_rowid : Nat
deriving Repr, DecidableEq

/-- A freshly initialised database. -/
def ConvDB.empty : ConvDB := ⟨[], [], 0⟩

/-- `create_conversation`: the fresh uuid is passed in by the caller
(external randomness); `INSERT INTO conversations`. -/
def create_conversation (db : ConvDB) (cid : String) : ConvDB :=
  { db with conversations := db.conversations ++ [cid] }

/-- `add_message`: `INSERT OR IGNORE` the conversation row, then insert
the message.  The schema's `CHECK(role IN ('user','assistant'))` makes
the insert fail for any other role (`none` = `IntegrityError`).  `now`
stands for `CURRENT_TIMESTAMP`. -/
def add_message (db : ConvDB) (cid role content : String) (now : Nat) :
    Option ConvDB :=
  if role = "user" ∨ role = "assistant" then
    some { conversations :=
             if cid ∈ db.conversations then db.conversations
             else db.conversations ++ [cid],
           msgs := db.msgs ++ [⟨db.next_rowid, cid, role, content, now⟩],
           next_rowid := db.next_rowid + 1 }
  else none

/-- Insert one message into a list already sorted by `created_at`
descending, after every element with an equal or larger timestamp. -/
def insertDescByTime (m : Msg) : List Msg → List Msg
  | [] => [m]
  | x :: xs =>
    if x.created_at < m.created_at then m :: x :: xs
    else x :: insertDescByTime m xs

/-- The `ORDER BY created_at DESC` read: a stable descending sort on
`created_at` (ties stay in rowid order), which is what the shipped
SQLite database does on this query per the repository's unit tests. -/
def sortByTimeDesc (l : List Msg) : List Msg :=
  l.foldl (fun acc m => insertDescByTime m acc) []

/-- `get_history(conversation_id, limit)`: filter the conversation's
rows, read them `ORDER BY created_at DESC LIMIT ?`, then
`list(reversed(...))`; each row is `(role, content, created_at)`. -/
def get_history (db : ConvDB) (cid : String) (lim : Nat) :
    List (String × String × Nat) :=
  (((sortByTimeDesc (db.msgs.filter (fun m => m.conversation_id == cid))).take
      lim).reverse).map (fun m => (m.role, m.content, m.created_at))

/-- The end-to-end scenario of claim C8, with the two `CURRENT_TIMESTAMP`
readings `t1` and `t2` made explicit:
`create_conversation()` → `add_message(id,"user","hi")` →
`add_message(id,"assistant","hello")` → `get_history(id, limit=10)`. -/
def convScenario (t1 t2 : Nat) : Option (List (String × String × Nat)) :=
  (add_message (create_conversation ConvDB.empty "c") "c" "user" "hi" t1).bind
    (fun db => add_message db "c" "assistant" "hello" t2) |>.map
    (fun db => get_history db "c" 10)

/-- Claim C8 as stated: however the clock behaves across the two writes
(it never goes backwards), the history read returns
`[{"user","hi"}, {"assistant","hello"}]` in that order. -/
def ConvScenarioClaim : Prop :=
  ∀ t1 t2 : Nat, t1 ≤ t2 →
    (convScenario t1 t2).map (List.map (fun x => (x.1, x.2.1))) =
      some [("user", "hi"), ("assistant", "hello")]

/-! ## JSON values and `json.dumps`

A small model of the Python JSON values flowing through `llm_service.py`
and `chat.py`, with `json.dumps` under its default separators
(`", "` / `": "`). -/

/-- A Python JSON value. -/
inductive Json where
  | null
  | bool (b : Bool)
  | num (n : Int)
  | str (s : String)
  | arr (xs : List Json)
  | obj (kvs : List (String × Json))
deriving Repr

/-- JSON string quoting (escaping the backslash and the quote; the
strings the claims touch contain nothing else that `json.dumps` escapes). -/
def jsonQuote (s : String) : String :=
  "\"" ++ String.join (s.toList.map (fun c =>
    if c = '\\' then "\\\\" else if c = '"' then "\\\"" else String.singleton c)) ++ "\""

mutual

/-- `json.dumps` with default separators. -/
def dumpsVal : Json → String
  | .null => "null"
  | .bool true => "true"
  | .bool false => "false"
  | .num n => toString n
  | .str s => jsonQuote s
  | .arr xs => "[" ++ dumpsArr xs ++ "]"
  | .obj kvs => "\x7b" ++ dumpsObj kvs ++ "\x7d"

def dumpsArr : List Json → String
  | [] => ""
  | [x] => dumpsVal x
  | x :: y :: xs => dumpsVal x ++ ", " ++ dumpsArr (y :: xs)

def dumpsObj : List (String × Json) → String
  | [] => ""
  | [(k, v)] => jsonQuote k ++ ": " ++ dumpsVal v
  | (k, v) :: y :: xs => jsonQuote k ++ ": " ++ dumpsVal v ++ ", " ++ dumpsObj (y :: xs)

end

/-- `d.get(k, default)` for an object; non-objects give the default
(in Python a non-dict would raise `AttributeError` — no claim exercises
that corner and the gateway's upstream replies are objects). -/
def jGetD (j : Json) (k : String) (dflt : Json) : Json :=
  match j with
  | Json.obj kvs => match kvs.lookup k with | some v => v | none => dflt
  | _ => dflt

/-- Read a JSON value as the string the Python code passes on;
non-strings (which the providers never produce in these fields) read
as `""`. -/
def jStr : Json → String
  | Json.str s => s
  | _ => ""

/-! ## `LLMService.generate`

`backend/services/llm_service.py`, lines 97–179.  The provider decision
table collapses to the one bit the claims quantify over: `is_local`.
The upstream HTTP exchange is the oracle `HttpOutcome`; request assembly
(headers, payload) does not influence what `generate` returns and is not
modelled.  Exceptions escaping `generate` are `Except.error`. -/

/-- What the upstream HTTP call did: a transport-level failure
(`httpx.RequestError`), or a response with a status code, a parsed JSON
body (`none` when `resp.json()` raises), and the raw text `resp.text`. -/
inductive HttpOutcome where
  | transportError (msg : String)
  | response (status : Nat) (body : Option Json) (text : String)

/-- An exception propagating out of `generate`. -/
inductive GenError where
  | httpStatusError (status : Nat)
  | requestError (msg : String)
  | jsonDecodeError
  | keyError
deriving Repr, DecidableEq

/-- The `err` object in the cloud branch's `json.dumps({"error": err})`:
`resp.json()` when it parses, else `resp.text`. -/
def cloudErrorBody (body : Option Json) (text : String) : Json :=
  match body with
  | some j => j
  | none => Json.str text

/-- `LLMService.generate`.  Cloud mode (`not is_local`): transport errors
and non-200 statuses are caught and returned as
`json.dumps({"error": ...})`; a 200 reply has
`choices[0].message.content` extracted (missing pieces default per
`.get`).  Local mode: the `httpx` exceptions propagate
(`raise_for_status` raises on any 4xx/5xx) and the reply must carry a
`content` key. -/
def generate (is_local : Bool) (outcome : HttpOutcome) : Except GenError String :=
  if is_local then
    match outcome with
    | .transportError msg => .error (.requestError msg)
    | .response status body _ =>
      if 400 ≤ status then .error (.httpStatusError status)
      else
        match body with
        | none => .error .jsonDecodeError
        | some data =>
          match data with
          | Json.obj kvs =>
            match kvs.lookup "content" with
            | some v => .ok (jStr v)
            | none => .error .keyError
          | _ => .error .keyError
  else
    match outcome with
    | .transportError msg =>
      .ok (dumpsVal (Json.obj [("error", Json.str msg)]))
    | .response status body text =>
      if status ≠ 200 then
        .ok (dumpsVal (Json.obj [("error", cloudErrorBody body text)]))
      else
        match body with
        | none => .error .jsonDecodeError
        | some data =>
          match jGetD data "choices" (Json.arr []) with
          | Json.arr (c :: _) =>
            .ok (jStr (jGetD (jGetD c "message" (Json.obj [])) "content" (Json.str "")))
          | _ => .ok ""

/-- Claim C3 as stated: in either provider mode, a non-2xx upstream
response makes `generate` return a structured error payload instead of
raising. -/
def GenerateErrorPayloadClaim : Prop :=
  ∀ (is_local : Bool) (status : Nat) (body : Option Json) (text : String),
    status < 200 ∨ 300 ≤ status →
    ∃ e : Json,
      generate is_local (HttpOutcome.response status body text) =
        Except.ok (dumpsVal (Json.obj [("error", e)]))

/-! ## `LLMService.build_rag_prompt`

`backend/services/llm_service.py`, lines 275–318. -/

/-- Python `sep.join(parts)`. -/
def pyJoin (sep : String) : List String → String
  | [] => ""
  | [x] => x
  | x :: y :: xs => x ++ sep ++ pyJoin sep (y :: xs)

/-- Indentation prefix of `json.dumps(..., indent=2)` lines. -/
def indentStr (n : Nat) : String := String.join (List.replicate n " ")

mutual

/-- `json.dumps` with `indent=2`, at current indentation `cur`. -/
def dumpsIVal (cur : Nat) : Json → String
  | .null => "null"
  | .bool true => "true"
  | .bool false => "false"
  | .num n => toString n
  | .str s => jsonQuote s
  | .arr [] => "[]"
  | .arr (x :: xs) =>
    "[\n" ++ dumpsIArr (cur + 2) (x :: xs) ++ "\n" ++ indentStr cur ++ "]"
  | .obj [] => "\x7b\x7d"
  | .obj (kv :: kvs) =>
    "\x7b\n" ++ dumpsIObj (cur + 2) (kv :: kvs) ++ "\n" ++ indentStr cur ++ "\x7d"

def dumpsIArr (cur : Nat) : List Json → String
  | [] => ""
  | [x] => indentStr cur ++ dumpsIVal cur x
  | x :: y :: xs =>
    indentStr cur ++ dumpsIVal cur x ++ ",\n" ++ dumpsIArr cur (y :: xs)

def dumpsIObj (cur : Nat) : List (String × Json) → String
  | [] => ""
  | [(k, v)] => indentStr cur ++ jsonQuote k ++ ": " ++ dumpsIVal cur v
  | (k, v) :: y :: kvs =>
    indentStr cur ++ jsonQuote k ++ ": " ++ dumpsIVal cur v ++ ",\n" ++
      dumpsIObj cur (y :: kvs)

end

/-- `json.dumps(x, indent=2)`. -/
def pyDumpsIndent2 (j : Json) : String := dumpsIVal 0 j

/-- One retrieved chunk as `build_rag_prompt` receives it: a dict with
`content` and `metadata`, whose `filename` key may be absent
(`c['metadata'].get('filename', 'unknown')`). -/
structure RagChunk where
  content : String
  filename : Option String
deriving Repr, DecidableEq

/-- One history line: `"User: …"` for role `user`, `"Assistant: …"` for
anything else. -/
def renderHistLine (msg : String × String) : String :=
  (if msg.1 = "user" then "User" else "Assistant") ++ ": " ++ msg.2

/-- One document-context entry:
`f"[Source: {c['metadata'].get('filename', 'unknown')}]\n{c['content']}"`. -/
def renderChunk (c : RagChunk) : String :=
  "[Source: " ++ c.filename.getD "unknown" ++ "]\n" ++ c.content

/-- The fixed closing instruction appended to every prompt. -/
def ragClosing : String :=
  "Based on the above context, data, and conversation history, provide a comprehensive answer. If the information is not in the context, say so clearly."

/-- `LLMService.build_rag_prompt`.  `conversation_history = []` stands
for both Python `None` and `[]` (both falsy); `api_data` keeps the
`Optional[Dict]` shape, with `some []` an empty dict (also falsy). -/
def build_rag_prompt (query : String) (context_chunks : List RagChunk)
    (api_data : Option (List (String × Json)))
    (conversation_history : List (String × String)) : String :=
  let parts1 : List String :=
    if conversation_history = [] then [] else
      ["Conversation History:\n" ++
        pyJoin "\n"
          ((conversation_history.drop (conversation_history.length - 6)).map
            renderHistLine) ++ "\n"]
  let parts2 := parts1 ++ ["Current Question: " ++ query ++ "\n"]
  let context_text := pyJoin "\n\n" (context_chunks.map renderChunk)
  let parts3 := parts2 ++
    (if context_text = "" then [] else
      ["Document Context:\n" ++ context_text ++ "\n"])
  let parts4 := parts3 ++
    (match api_data with
     | some kvs =>
       if kvs.isEmpty then [] else
         ["External Data:\n" ++ pyDumpsIndent2 (Json.obj kvs) ++ "\n"]
     | none => [])
  pyJoin "\n" (parts4 ++ [ragClosing])

/-- The section list claimed by spec §4.5, written from the spec's words:
history (when present, exactly the *last six* entries), then the current
question, then document context (when chunks are present), then external
data (when present), then the fixed closing instruction; empty sections
are absent. -/
def specRagSections (query : String) (context_chunks : List RagChunk)
    (api_data : Option (List (String × Json)))
    (conversation_history : List (String × String)) : List String :=
  (if conversation_history = [] then [] else
    ["Conversation History:\n" ++
      pyJoin "\n"
        (((conversation_history.reverse.take 6).reverse).map renderHistLine) ++
      "\n"]) ++
  ["Current Question: " ++ query ++ "\n"] ++
  (if context_chunks = [] then [] else
    ["Document Context:\n" ++
      pyJoin "\n\n" (context_chunks.map renderChunk) ++ "\n"]) ++
  (match api_data with
   | some kvs =>
     if kvs.isEmpty then [] else
       ["External Data:\n" ++ pyDumpsIndent2 (Json.obj kvs) ++ "\n"]
   | none => []) ++
  [ragClosing]

/-! ## `_fetch_tool_data`

`backend/routers/chat.py`, lines 161–189.  The awaited `api_tools` call
for each networked tool is the oracle: `Except.ok` is the returned
payload, `Except.error` the message of a raised exception (caught by the
per-tool `try/except`). -/

/-- Python `data[k] = v` on a dict kept as an insertion-ordered
association list: overwrite in place, or append a fresh key. -/
def dictInsert (d : List (String × Json)) (k : String) (v : Json) :
    List (String × Json) :=
  if (d.lookup k).isSome then
    d.map (fun kv => if kv.1 = k then (k, v) else kv)
  else d ++ [(k, v)]

/-- The `{"error": str(e)}` dict. -/
def toolErrorObj (msg : String) : Json := Json.obj [("error", Json.str msg)]

/-- The four tools whose branches await a network call. -/
def netTools : List String := ["github", "crypto", "weather", "hackernews"]

/-- Every tool name the `if/elif` chain handles. -/
def knownTools : List String := netTools ++ ["drive", "slack"]

/-- One iteration of the `for tool in tools` loop: the `if/elif` chain
with its surrounding `try/except`.  A name outside `knownTools` matches
no branch and writes nothing. -/
def fetchToolStep (oracle : String → Except String Json)
    (data : List (String × Json)) (tool : String) : List (String × Json) :=
  if tool ∈ netTools then
    match oracle tool with
    | .ok v => dictInsert data tool v
    | .error e => dictInsert data tool (toolErrorObj e)
  else if tool = "drive" then
    dictInsert data "drive" (toolErrorObj "Drive connector requires configuration")
  else if tool = "slack" then
    dictInsert data "slack" (toolErrorObj "Slack connector requires configuration")
  else data

/-- `_fetch_tool_data(tools, params, api_tools)`. -/
def fetchToolData (tools : List String)
    (oracle : String → Except String Json) : List (String × Json) :=
  tools.foldl (fetchToolStep oracle) []

/-- Claim C4 as stated: every requested tool name — unknown names
included — gets an entry in the returned mapping. -/
def ToolFanoutClaim : Prop :=
  ∀ (tools : List String) (oracle : String → Except String Json)
    (t : String), t ∈ tools →
    ((fetchToolData tools oracle).lookup t).isSome

/-! ## `VectorStoreService.search`

`backend/services/vector_store.py`, lines 49–82.  The Chroma collection
is a list of stored entries; the embedding model and the cosine distance
of the HNSW index are oracles (`embed`, `dist`).  `collection.query`
returns, per query embedding, the `n_results` nearest matching entries
ordered by ascending distance — one inner list per query, so an empty
collection yields `[[]]`, not `[]`. -/

/-- One stored chunk: `(document, metadata, embedding)`. -/
structure ChromaEntry where
  document : String
  metadata : List (String × String)
  embedding : List ℚ

/-- The `where` argument `search` builds:
`{"filename": f}` or `{"filename": {"$in": fs}}`. -/
inductive WhereClause where
  | eq (fname : String)
  | isin (fnames : List String)

/-- Does an entry's metadata satisfy the `where` clause? -/
def whereMatches (w : Option WhereClause) (meta : List (String × String)) :
    Bool :=
  match w with
  | none => true
  | some (.eq f) => meta.lookup "filename" == some f
  | some (.isin fs) =>
    match meta.lookup "filename" with
    | some f => fs.contains f
    | none => false

/-- `where_clause` construction from `file_filters` (Python truthiness:
`None` and `[]` give no clause; one name an equality; several a
`$in`). -/
def buildWhere (file_filters : Option (List String)) : Option WhereClause :=
  match file_filters with
  | none => none
  | some [] => none
  | some [f] => some (.eq f)
  | some fs => some (.isin fs)

/-- Insert an entry into a list sorted by ascending distance. -/
def insertByDist (dist : ChromaEntry → ℚ) (e : ChromaEntry) :
    List ChromaEntry → List ChromaEntry
  | [] => [e]
  | x :: xs =>
    if dist e < dist x then e :: x :: xs else x :: insertByDist dist e xs

/-- Sort entries by ascending distance to the query. -/
def sortByDist (dist : ChromaEntry → ℚ) (l : List ChromaEntry) :
    List ChromaEntry :=
  l.foldr (insertByDist dist) []

/-- The dict `collection.query(...)` returns (one inner list per query
embedding; we always pass exactly one). -/
structure ChromaQueryResult where
  documents : List (List String)
  metadatas : List (List (List (String × String)))
  distances : List (List ℚ)

/-- `collection.query(query_embeddings=[qEmb], n_results=n, where=w)`. -/
def chromaQuery (entries : List ChromaEntry)
    (dist : List ℚ → List ℚ → ℚ) (qEmb : List ℚ) (n : Nat)
    (w : Option WhereClause) : ChromaQueryResult :=
  let matched := entries.filter (fun e => whereMatches w e.metadata)
  let sorted := sortByDist (fun e => dist qEmb e.embedding) matched
  let top := sorted.take n
  { documents := [top.map (fun e => e.document)],
    metadatas := [top.map (fun e => e.metadata)],
    distances := [top.map (fun e => dist qEmb e.embedding)] }

/-- One element of the list `search` returns. -/
structure SearchHit where
  content : String
  metadata : List (String × String)
  score : ℚ
deriving Repr, DecidableEq

/-- `VectorStoreService.search(query, n_results, file_filters)`. -/
def vs_search (entries : List ChromaEntry) (embed : String → List ℚ)
    (dist : List ℚ → List ℚ → ℚ) (query : String) (n_results : Nat)
    (file_filters : Option (List String)) : List SearchHit :=
  let qEmb := embed query
  let results := chromaQuery entries dist qEmb n_results (buildWhere file_filters)
  if results.documents = [] then []
  else
    ((results.documents.headD []).zip
        ((results.metadatas.headD []).zip (results.distances.headD []))).map
      (fun x => { content := x.1, metadata := x.2.1, score := 1 - x.2.2 })

/-! ## `chat_query` and `websocket_chat`

`backend/routers/chat.py`, lines 27–158.  Each endpoint's straight-line
body is embedded as the trace of side-effecting calls it issues, in
program order, plus the value it returns/stores.  The LLM exchange is the
`HttpOutcome`/`StreamOutcome` oracle; an exception propagating out of a
step truncates the trace at that step. -/

/-- One observable side effect of the orchestrator. -/
inductive Ev where
  | createConv (cid : String)
  | readHistory (cid : String) (lim : Nat)
  | addMsg (cid role content : String)
  | searchDocs (q : String)
  | fetchTools (tools : List String)
  | genCall
  | wsSend (kind : String)
  | tokenSend (content : String)
  | respond (response : String)
deriving Repr, DecidableEq

/-- The request body (`ChatRequest` / the parsed websocket frame).
`tools = []` stands for both `None` and `[]` (both falsy). -/
structure ChatRequest where
  message : String
  use_documents : Bool
  tools : List String
  conversation_id : Option String
deriving Repr, DecidableEq

/-- `conv_id = chat_request.conversation_id or create_conversation()`:
Python truthiness, so `None` *and* the empty string allocate a fresh id.
Returns the resolved id and the creation event (if any). -/
def resolveCid (reqCid : Option String) (newId : String) :
    String × List Ev :=
  match reqCid with
  | some s => if s = "" then (newId, [Ev.createConv newId]) else (s, [])
  | none => (newId, [Ev.createConv newId])

/-- The shared straight-line prefix of both endpoints, through the
`generate`/`generate_stream` call: resolve the conversation, read
history, persist the user message, optionally retrieve and fan out.
`wsFrames` adds the websocket-only `api_data`/`start` frames. -/
def chatPrelude (req : ChatRequest) (newId : String) (wsFrames : Bool) :
    List Ev :=
  (resolveCid req.conversation_id newId).2 ++
    [Ev.readHistory (resolveCid req.conversation_id newId).1 10,
     Ev.addMsg (resolveCid req.conversation_id newId).1 "user" req.message] ++
    (if req.use_documents then [Ev.searchDocs req.message] else []) ++
    (if req.tools.isEmpty then []
     else Ev.fetchTools req.tools ::
       (if wsFrames then [Ev.wsSend "api_data"] else [])) ++
    (if wsFrames then [Ev.wsSend "start"] else []) ++
    [Ev.genCall]

/-- `chat_query` (`POST /query`): after the prelude, a blocking
`generate`; its exception propagates (no trace past the call), its value
is persisted as the assistant message and returned. -/
def chat_query (req : ChatRequest) (newId : String) (is_local : Bool)
    (out : HttpOutcome) : List Ev × Option String :=
  let cid := (resolveCid req.conversation_id newId).1
  match generate is_local out with
  | .error _ => (chatPrelude req newId false, none)
  | .ok s =>
    (chatPrelude req newId false ++ [Ev.addMsg cid "assistant" s, Ev.respond s],
      some s)

/-- What the upstream token stream did: ran to its terminal token, or the
client disconnected while the `delivered`-th token frame was being sent
(the raised `WebSocketDisconnect` aborts the iteration). -/
inductive StreamOutcome where
  | completed (tokens : List String)
  | disconnected (delivered : Nat) (tokens : List String)

/-- One iteration of the `websocket_chat` loop: after the prelude, the
token frames; the accumulated `full_response` is persisted and the `end`
frame sent only once the stream finishes.  A disconnect inside the token
loop truncates the trace with nothing persisted. -/
def websocket_iter (req : ChatRequest) (newId : String)
    (outcome : StreamOutcome) : List Ev × Option String :=
  let cid := (resolveCid req.conversation_id newId).1
  match outcome with
  | .completed toks =>
    (chatPrelude req newId true ++ toks.map Ev.tokenSend ++
       [Ev.addMsg cid "assistant" (String.join toks), Ev.wsSend "end"],
      some (String.join toks))
  | .disconnected k toks =>
    if k < toks.length then
      (chatPrelude req newId true ++ (toks.take k).map Ev.tokenSend, none)
    else
      (chatPrelude req newId true ++ toks.map Ev.tokenSend ++
         [Ev.addMsg cid "assistant" (String.join toks), Ev.wsSend "end"],
        some (String.join toks))

/-- No assistant turn is persisted anywhere in the trace. -/
def NoAssistantWrite (l : List Ev) : Prop :=
  ∀ cid content : String, Ev.addMsg cid "assistant" content ∉ l

/-- The value the fan-out stores under a known tool's key: the awaited
payload, an `{"error": str(e)}` dict for a raised exception, or the fixed
unconfigured-connector error for `drive`/`slack`. -/
def toolValue (oracle : String → Except String Json) (t : String) : Json :=
  if t ∈ netTools then
    match oracle t with
    | .ok v => v
    | .error e => toolErrorObj e
  else if t = "drive" then toolErrorObj "Drive connector requires configuration"
  else toolErrorObj "Slack connector requires configuration"

/-- The concrete run of `chunk_text "ab. cdef" 4 1` (used as a witness
input below): chunks `["ab.", "cde", "ef"]`, starts `[0, 3, 6]`. -/
def chunkAlignedWitnessRun : List (List Char) × List ChunkMeta :=
  (["ab.".toList, "cde".toList, "ef".toList],
    [⟨"f", 0, 0⟩, ⟨"f", 1, 3⟩, ⟨"f", 2, 6⟩])

/-! ## Theorems: the chunker (claims C2 and C7) -/

/-- Under `2·O ≤ S`, one loop iteration advances the window start by at
least one position (the no-shrink branch advances by exactly `S − O`; the
sentence-boundary shrink advances by `last_period + 1 − O ≥ S/2 + 2 − O`). -/
theorem chunkCut_advance (text : List Char) (S O : Nat) (start : Int)
    (hS : 0 < S) (hO : 2 * O ≤ S) :
    start + 1 ≤ (chunkCut text S start).2 - (O : Int) := by
  have hOS : O < S := by omega
  have hOhalf : O ≤ S / 2 := by omega
  simp only [chunkCut]
  split
  · split
    · rename_i hlp
      simp only []
      have : (O : Int) ≤ ((S / 2 : Nat) : Int) := by exact_mod_cast hOhalf
      omega
    · simp only []
      omega
  · simp only []
    omega

theorem chunkLoop_isSome (text : List Char) (S O : Nat) (fname : String)
    (hS : 0 < S) (hO : 2 * O ≤ S) :
    ∀ (fuel : Nat) (start : Int) (idx : Nat),
      (text.length : Int) - start < fuel → 0 < fuel →
      (chunkLoop text S O fname fuel start idx).isSome := by
  intro fuel
  induction fuel with
  | zero => intro start idx _ h0; exact absurd h0 (by omega)
  | succ n ih =>
    intro start idx hlt _
    by_cases hs : start < (text.length : Int)
    · have hadv := chunkCut_advance text S O start hS hO
      have hn : (text.length : Int) - ((chunkCut text S start).2 - O) < n := by omega
      have hn0 : 0 < n := by omega
      have hrec := ih ((chunkCut text S start).2 - (O : Int)) (idx + 1) hn hn0
      rw [Option.isSome_iff_exists] at hrec
      obtain ⟨v, hv⟩ := hrec
      simp only [chunkLoop, if_pos hs]
      rw [hv]
      rfl
    · simp only [chunkLoop, if_neg hs]
      rfl

/-- C2, amended: with `chunk_size = 10` and `overlap = 8` (a configuration
the claim admits, since `0 ≤ 8 < 10`), the loop sticks forever at
`start = 0` on `"abcdefg. xxxx"`: the shrink cuts the window at the
terminator (`last_period = 7 > 10/2`), so `end = 8` and
`start = end - overlap = 0` again.  No amount of fuel finishes. -/
theorem chunkLoop_stuck (fuel idx : Nat) :
    chunkLoop "abcdefg. xxxx".toList 10 8 "f" fuel 0 idx = none := by
  induction fuel generalizing idx with
  | zero => rfl
  | succ n ih =>
    have hstep : chunkLoop "abcdefg. xxxx".toList 10 8 "f" (n + 1) 0 idx =
        (match chunkLoop "abcdefg. xxxx".toList 10 8 "f" n 0 (idx + 1) with
         | none => none
         | some (cs, ms) =>
            some (pyStrip (chunkCut "abcdefg. xxxx".toList 10 0).1 :: cs,
                  ⟨"f", idx, 0⟩ :: ms)) := rfl
    rw [hstep, ih]

/-- Claim C2 is false as stated: there is a configuration with
`0 ≤ O < S` (namely `S = 10`, `O = 8`) and an input text on which the
`chunk_text` loop never terminates. -/
theorem chunk_text_termination_cex : ¬ ChunkTerminatesClaim := by
  intro h
  obtain ⟨fuel, hf⟩ := h "abcdefg. xxxx".toList 10 8 "f" (by omega)
  rw [chunk_text, chunkLoop_stuck] at hf
  exact Bool.noConfusion hf

/-- C2, amended: whenever the overlap is at most half the chunk size
(`2·O ≤ S`, which the shipped configuration `S = 500`, `O = 50`
satisfies), `chunk_text` terminates — fuel `len(text) + 1` always
suffices — and every loop iteration advances the window start by at
least one position. -/
theorem chunk_text_terminates (text : List Char) (S O : Nat) (fname : String)
    (hS : 0 < S) (hO : 2 * O ≤ S) :
    (chunk_text text S O fname (text.length + 1)).isSome ∧
      ∀ start : Int, start + 1 ≤ (chunkCut text S start).2 - (O : Int) := by
  constructor
  · exact chunkLoop_isSome text S O fname hS hO (text.length + 1) 0 0
      (by omega) (by omega)
  · intro start
    exact chunkCut_advance text S O start hS hO

/-- Witness for `chunk_text_terminates` at `S = 10`, `O = 5`,
`text = "Sentence one. Sentence two."`. -/
theorem chunk_text_terminates_witness :
    (chunk_text "Sentence one. Sentence two.".toList 10 5 "doc.txt"
        ("Sentence one. Sentence two.".toList.length + 1)).isSome ∧
      ∀ start : Int,
        start + 1 ≤ (chunkCut "Sentence one. Sentence two.".toList 10 start).2 - (5 : Int) :=
  chunk_text_terminates "Sentence one. Sentence two.".toList 10 5 "doc.txt"
    (by decide) (by decide)

/-- The two `append` calls of the chunk loop run in lockstep, so the
chunk list and the metadata list always have the same length. -/
theorem chunkLoop_lengths (text : List Char) (S O : Nat) (fname : String) :
    ∀ (fuel : Nat) (start : Int) (idx : Nat) (cs : List (List Char))
      (ms : List ChunkMeta),
      chunkLoop text S O fname fuel start idx = some (cs, ms) →
      cs.length = ms.length := by
  intro fuel
  induction fuel with
  | zero => intro start idx cs ms h; exact Option.noConfusion h
  | succ n ih =>
    intro start idx cs ms h
    simp only [chunkLoop] at h
    split at h
    · split at h
      · exact Option.noConfusion h
      · rename_i cs' ms' heq
        obtain ⟨h1, h2⟩ := Prod.mk.injEq _ _ _ _ ▸ Option.some.injEq _ _ ▸ h
        subst h1; subst h2
        simpa using ih _ _ _ _ heq
    · obtain ⟨h1, h2⟩ := Prod.mk.injEq _ _ _ _ ▸ Option.some.injEq _ _ ▸ h
      subst h1; subst h2
      rfl

/-- Under `2·O ≤ S` every recorded `start_char` is at least the current
window start, and the recorded values form a non-decreasing chain. -/
theorem chunkLoop_starts_mono (text : List Char) (S O : Nat) (fname : String)
    (hS : 0 < S) (hO : 2 * O ≤ S) :
    ∀ (fuel : Nat) (start : Int) (idx : Nat) (cs : List (List Char))
      (ms : List ChunkMeta),
      chunkLoop text S O fname fuel start idx = some (cs, ms) →
      (ms.map ChunkMeta.start_char).Chain' (· ≤ ·) ∧
        ∀ m ∈ ms, start ≤ m.start_char := by
  intro fuel
  induction fuel with
  | zero => intro start idx cs ms h; exact Option.noConfusion h
  | succ n ih =>
    intro start idx cs ms h
    simp only [chunkLoop] at h
    split at h
    · split at h
      · exact Option.noConfusion h
      · rename_i cs' ms' heq
        obtain ⟨h1, h2⟩ := Prod.mk.injEq _ _ _ _ ▸ Option.some.injEq _ _ ▸ h
        subst h1; subst h2
        have hadv := chunkCut_advance text S O start hS hO
        obtain ⟨hchain, hge⟩ := ih _ _ _ _ heq
        refine ⟨?_, ?_⟩
        · rw [List.map_cons, List.chain'_cons']
          refine ⟨?_, hchain⟩
          intro y hy
          rcases ms' with _ | ⟨m0, ms''⟩
          · simp at hy
          · simp only [List.map_cons, List.head?_cons, Option.mem_def,
              Option.some.injEq] at hy
            have h0 := hge m0 (List.mem_cons_self _ _)
            show start ≤ y
            omega
        · intro m hm
          rcases List.mem_cons.mp hm with rfl | hm'
          · exact le_refl _
          · have := hge m hm'
            omega
    · obtain ⟨h1, h2⟩ := Prod.mk.injEq _ _ _ _ ▸ Option.some.injEq _ _ ▸ h
      subst h1; subst h2
      exact ⟨List.chain'_nil, by intro m hm; exact absurd hm (List.not_mem_nil m)⟩

/-- Claim C7 is false as stated: with `S = 10`, `O = 8` (admitted by
`0 ≤ O < S`) on `"abcdef. xxxxx"`, `chunk_text` terminates with
`start_char` metadata `[0, -1, 1, 3, 5, 7, 9, 11]` — the sentence shrink
pulls `end` to `7`, so the second window starts at `7 - 8 = -1`, below
the first.  The sequence is not non-decreasing. -/
theorem chunk_text_aligned_cex : ¬ ChunkAlignedClaim := by
  intro h
  rcases hr : chunk_text "abcdef. xxxxx".toList 10 8 "f" 30 with _ | r
  · have hs : (chunk_text "abcdef. xxxxx".toList 10 8 "f" 30).isSome = true := by decide
    rw [hr] at hs
    exact Bool.noConfusion hs
  · have hmap : (chunk_text "abcdef. xxxxx".toList 10 8 "f" 30).map
        (fun x => x.2.map ChunkMeta.start_char) =
        some [0, -1, 1, 3, 5, 7, 9, 11] := by decide
    rw [hr, Option.map_some'] at hmap
    have hchain := (h "abcdef. xxxxx".toList 10 8 "f" 30 r (by omega) hr).2
    rw [Option.some.injEq] at hmap
    rw [hmap] at hchain
    exact absurd (List.chain'_cons.mp hchain).1 (by norm_num)

/-- C7, amended: whenever `chunk_text` returns, the chunk list and the
metadata list have equal length (for every configuration `O < S`); when
additionally the overlap is at most half the chunk size (`2·O ≤ S`), the
recorded `start_char` values are non-decreasing. -/
theorem chunk_text_aligned (text : List Char) (S O : Nat) (fname : String)
    (fuel : Nat) (r : List (List Char) × List ChunkMeta) (hOS : O < S)
    (h : chunk_text text S O fname fuel = some r) :
    r.1.length = r.2.length ∧
      (2 * O ≤ S → (r.2.map ChunkMeta.start_char).Chain' (· ≤ ·)) := by
  obtain ⟨cs, ms⟩ := r
  refine ⟨chunkLoop_lengths text S O fname fuel 0 0 cs ms h, fun hO => ?_⟩
  exact (chunkLoop_starts_mono text S O fname (by omega) hO fuel 0 0 cs ms h).1

/-- Witness for `chunk_text_aligned` at `S = 4`, `O = 1` on
`"ab. cdef"`, whose chunk run is `chunkAlignedWitnessRun`
(chunks `["ab.", "cde", "ef"]`, `start_char` values `[0, 3, 6]`). -/
theorem chunk_text_aligned_witness :
    chunkAlignedWitnessRun.1.length = chunkAlignedWitnessRun.2.length ∧
      (2 * 1 ≤ 4 →
        (chunkAlignedWitnessRun.2.map ChunkMeta.start_char).Chain' (· ≤ ·)) :=
  chunk_text_aligned "ab. cdef".toList 4 1 "f" 10 chunkAlignedWitnessRun
    (by decide) (by decide)

/-! ## Theorems: the conversation store (claims C1 and C8) -/

/-- C1, evaluated at the failing input: two messages inserted into the
same conversation with identical `created_at` (both `7`) come back from
`get_history` in *reverse* insertion order, `[m2, m1]` — exactly the
behaviour the repository's unit test `test_get_history` documents
("returned in reverse insertion order ... when timestamps are same") and
the opposite of the claimed invariant. -/
theorem get_history_collision_bug :
    ((add_message (create_conversation ConvDB.empty "c") "c" "user" "m1" 7).bind
        (fun db => add_message db "c" "assistant" "m2" 7)).map
        (fun db => get_history db "c" 10) =
      some [("assistant", "m2", 7), ("user", "m1", 7)] := by
  decide

/-- Claim C8 is false as stated: when the two `add_message` calls land in
the same `CURRENT_TIMESTAMP` second (here both at `0` — the common case,
since the two writes are issued back to back), the history comes back as
`[hello, hi]`, not `[hi, hello]`. -/
theorem conv_scenario_cex : ¬ ConvScenarioClaim := by
  intro h
  exact absurd (h 0 0 (le_refl 0)) (by decide)

/-- C8, amended: the scenario returns exactly
`[{"user","hi"}, {"assistant","hello"}]` provided the two messages carry
strictly increasing `created_at` timestamps; when the timestamps collide
at the store's one-second resolution the order is reversed. -/
theorem conv_scenario_ordered (t1 t2 : Nat) (h : t1 < t2) :
    (convScenario t1 t2).map (List.map (fun x => (x.1, x.2.1))) =
      some [("user", "hi"), ("assistant", "hello")] := by
  simp only [convScenario, create_conversation, add_message, ConvDB.empty,
    get_history, sortByTimeDesc, insertDescByTime]
  norm_num [List.filter, insertDescByTime, h]

/-- Witness for `conv_scenario_ordered` at `t1 = 0`, `t2 = 1`. -/
theorem conv_scenario_ordered_witness :
    (convScenario 0 1).map (List.map (fun x => (x.1, x.2.1))) =
      some [("user", "hi"), ("assistant", "hello")] :=
  conv_scenario_ordered 0 1 (by decide)

/-! ## Theorems: the generation gateway (claim C3) -/

/-- Claim C3 is false as stated: in local mode a 500 reply hits
`response.raise_for_status()`, which raises `httpx.HTTPStatusError`
instead of returning an error payload — and the repository's own unit
test `test_generate_http_error` expects exactly that raise. -/
theorem generate_error_payload_cex : ¬ GenerateErrorPayloadClaim := by
  intro h
  obtain ⟨e, he⟩ := h true 500 (some (Json.obj [("content", Json.str "x")]))
    "Internal Server Error" (by omega)
  have hgen : generate true (HttpOutcome.response 500
      (some (Json.obj [("content", Json.str "x")])) "Internal Server Error") =
      Except.error (GenError.httpStatusError 500) := rfl
  rw [hgen] at he
  exact Except.noConfusion he

/-- C3, amended: the two modes follow different policies.  Cloud mode
returns `json.dumps({"error": ...})` for every status other than 200 and
even for transport-level errors; local mode raises on any 4xx/5xx status
(`raise_for_status`) and lets transport errors propagate. -/
theorem generate_error_policy (status : Nat) (body : Option Json)
    (text msg : String) :
    (status ≠ 200 →
      generate false (HttpOutcome.response status body text) =
        Except.ok (dumpsVal (Json.obj [("error", cloudErrorBody body text)]))) ∧
    generate false (HttpOutcome.transportError msg) =
      Except.ok (dumpsVal (Json.obj [("error", Json.str msg)])) ∧
    (400 ≤ status →
      generate true (HttpOutcome.response status body text) =
        Except.error (GenError.httpStatusError status)) ∧
    generate true (HttpOutcome.transportError msg) =
      Except.error (GenError.requestError msg) := by
  refine ⟨fun hs => ?_, rfl, fun hs => ?_, rfl⟩
  · simp only [generate, Bool.false_eq_true, if_false, if_pos hs]
  · simp only [generate, if_true, if_pos hs]

/-- Witness for `generate_error_policy` at a 503 reply whose body fails
to parse (`resp.text = "Service Unavailable"`) and a transport error
`"unreachable"`. -/
theorem generate_error_policy_witness :
    generate false (HttpOutcome.response 503 none "Service Unavailable") =
        Except.ok (dumpsVal (Json.obj
          [("error", cloudErrorBody none "Service Unavailable")])) ∧
      generate false (HttpOutcome.transportError "unreachable") =
        Except.ok (dumpsVal (Json.obj [("error", Json.str "unreachable")])) ∧
      generate true (HttpOutcome.response 503 none "Service Unavailable") =
        Except.error (GenError.httpStatusError 503) ∧
      generate true (HttpOutcome.transportError "unreachable") =
        Except.error (GenError.requestError "unreachable") := by
  have h := generate_error_policy 503 none "Service Unavailable" "unreachable"
  exact ⟨h.1 (by omega), h.2.1, h.2.2.1 (by omega), h.2.2.2⟩

/-! ## Theorems: the prompt assembler (claim C6) -/

/-- A rendered chunk starts with `"[Source: "`, so the document-context
text is empty exactly when there are no chunks. -/
theorem renderChunk_join_ne_empty (c : RagChunk) (cs : List RagChunk) :
    pyJoin "\n\n" ((c :: cs).map renderChunk) ≠ "" := by
  cases cs with
  | nil =>
    show renderChunk c ≠ ""
    intro h
    have hd := congrArg String.data h
    rw [renderChunk] at hd
    simp [String.data_append] at hd
  | cons d ds =>
    show renderChunk c ++ "\n\n" ++ pyJoin "\n\n" (renderChunk d :: ds.map renderChunk) ≠ ""
    intro h
    have hd := congrArg String.data h
    rw [renderChunk] at hd
    simp [String.data_append] at hd

/-- C6: `build_rag_prompt` is exactly the newline-join of the section
list described by spec §4.5 — history first (when present, rendered from
exactly the last six entries), then the current question, then the
document context (absent when there are no chunks), then external data
(absent when there is none), then the fixed closing instruction. -/
theorem build_rag_prompt_spec (query : String) (chunks : List RagChunk)
    (api_data : Option (List (String × Json)))
    (hist : List (String × String)) :
    build_rag_prompt query chunks api_data hist =
      pyJoin "\n" (specRagSections query chunks api_data hist) := by
  have hhist : hist.drop (hist.length - 6) = (hist.reverse.take 6).reverse :=
    List.rtake_eq_reverse_take_reverse hist 6
  simp only [build_rag_prompt, specRagSections, hhist]
  cases chunks with
  | nil => simp [pyJoin]
  | cons c cs =>
    rw [if_neg (renderChunk_join_ne_empty c cs),
      if_neg (by simp : ¬(c :: cs : List RagChunk) = [])]

/-! ## Theorems: the vector index (claim C9) -/

/-- C9: `search` on an index holding zero chunks returns `[]` — for every
query, every `n_results`, every file filter, every embedding model and
every distance metric — and raises nothing (the Chroma reply is
`{"documents": [[]], ...}`, whose single empty inner list zips to an
empty hit list). -/
theorem search_empty_index (embed : String → List ℚ)
    (dist : List ℚ → List ℚ → ℚ) (query : String) (n_results : Nat)
    (file_filters : Option (List String)) :
    vs_search [] embed dist query n_results file_filters = [] := by
  simp [vs_search, chromaQuery, sortByDist]

/-! ## Theorems: the tool fan-out (claim C4) -/

/-- Overwriting key `k` in place makes `k` look up as the new value. -/
theorem lookup_map_overwrite (d : List (String × Json)) (k : String)
    (v : Json) (hsome : (d.lookup k).isSome) :
    (d.map (fun kv => if kv.1 = k then (k, v) else kv)).lookup k = some v := by
  induction d with
  | nil => simp at hsome
  | cons kv rest ih =>
    obtain ⟨a, b⟩ := kv
    by_cases hk : a = k
    · subst hk
      simp only [List.map_cons, if_pos rfl]
      exact List.lookup_cons_self
    · have hbeq : (k == a) = false := beq_eq_false_iff_ne.mpr (Ne.symm hk)
      simp only [List.map_cons, if_neg hk]
      simp only [List.lookup_cons, hbeq] at hsome ⊢
      exact ih hsome

/-- Overwriting key `k` leaves every other key's lookup unchanged. -/
theorem lookup_map_overwrite_other (d : List (String × Json)) (k k' : String)
    (v : Json) (h : k' ≠ k) :
    (d.map (fun kv => if kv.1 = k then (k, v) else kv)).lookup k' =
      d.lookup k' := by
  induction d with
  | nil => rfl
  | cons kv rest ih =>
    obtain ⟨a, b⟩ := kv
    by_cases hk : a = k
    · subst hk
      have hbeq : (k' == a) = false := beq_eq_false_iff_ne.mpr h
      simp [List.lookup_cons, hbeq, ih]
    · simp only [List.map_cons, if_neg hk]
      simp only [List.lookup_cons]
      cases k' == a
      · exact ih
      · rfl

/-- `data[k] = v` makes `k` look up as `v`. -/
theorem lookup_dictInsert_self (d : List (String × Json)) (k : String)
    (v : Json) : (dictInsert d k v).lookup k = some v := by
  rw [dictInsert]
  split
  · rename_i hsome
    exact lookup_map_overwrite d k v hsome
  · rename_i hnone
    rw [List.lookup_append, Option.not_isSome_iff_eq_none.mp hnone]
    simp [Option.or]

/-- `data[k] = v` leaves every other key's lookup unchanged. -/
theorem lookup_dictInsert_other (d : List (String × Json)) (k k' : String)
    (v : Json) (h : k' ≠ k) :
    (dictInsert d k v).lookup k' = d.lookup k' := by
  rw [dictInsert]
  split
  · exact lookup_map_overwrite_other d k k' v h
  · have hbeq : (k' == k) = false := beq_eq_false_iff_ne.mpr h
    rw [List.lookup_append]
    simp only [List.lookup_cons, hbeq, List.lookup_nil]
    cases List.lookup k' d <;> rfl

/-- Processing a known tool leaves it mapped to its `toolValue`. -/
theorem fetchToolStep_self (oracle : String → Except String Json)
    (data : List (String × Json)) (t : String) (ht : t ∈ knownTools) :
    (fetchToolStep oracle data t).lookup t = some (toolValue oracle t) := by
  rw [fetchToolStep, toolValue]
  by_cases hnet : t ∈ netTools
  · rw [if_pos hnet, if_pos hnet]
    cases oracle t <;> exact lookup_dictInsert_self _ _ _
  · rw [if_neg hnet, if_neg hnet]
    by_cases hd : t = "drive"
    · rw [if_pos hd, if_pos hd]
      subst hd
      exact lookup_dictInsert_self _ _ _
    · rw [if_neg hd]
      have hsl : t = "slack" := by
        rw [knownTools] at ht
        rcases List.mem_append.mp ht with h | h
        · exact absurd h hnet
        · rcases h with _ | ⟨_, h⟩
          · exact absurd rfl hd
          · rcases h with _ | ⟨_, h⟩
            · rfl
            · exact absurd h (List.not_mem_nil t)
      rw [if_pos hsl]
      subst hsl
      exact lookup_dictInsert_self _ _ _

/-- Processing one tool never touches a different tool's entry. -/
theorem fetchToolStep_other (oracle : String → Except String Json)
    (data : List (String × Json)) (u t : String) (h : u ≠ t) :
    (fetchToolStep oracle data u).lookup t = data.lookup t := by
  rw [fetchToolStep]
  by_cases hnet : u ∈ netTools
  · rw [if_pos hnet]
    cases oracle u <;> exact lookup_dictInsert_other _ _ _ _ (Ne.symm h)
  · rw [if_neg hnet]
    by_cases hd : u = "drive"
    · rw [if_pos hd]
      subst hd
      exact lookup_dictInsert_other _ _ _ _ (Ne.symm h)
    · rw [if_neg hd]
      by_cases hsl : u = "slack"
      · rw [if_pos hsl]
        subst hsl
        exact lookup_dictInsert_other _ _ _ _ (Ne.symm h)
      · rw [if_neg hsl]

/-- Across the whole loop, a known requested tool ends up mapped to its
`toolValue` (later duplicates rewrite the same value). -/
theorem foldl_fetch_lookup (oracle : String → Except String Json)
    (t : String) (ht : t ∈ knownTools) :
    ∀ (tools : List String) (acc : List (String × Json)),
      (t ∈ tools ∨ acc.lookup t = some (toolValue oracle t)) →
      ((tools.foldl (fetchToolStep oracle) acc).lookup t) =
        some (toolValue oracle t) := by
  intro tools
  induction tools with
  | nil =>
    intro acc h
    rcases h with h | h
    · exact absurd h (List.not_mem_nil t)
    · simpa using h
  | cons u rest ih =>
    intro acc h
    rw [List.foldl_cons]
    by_cases hu : u = t
    · subst hu
      exact ih _ (Or.inr (fetchToolStep_self oracle acc u ht))
    · rcases h with h | h
      · rcases List.mem_cons.mp h with rfl | hmem
        · exact absurd rfl hu
        · exact ih _ (Or.inl hmem)
      · refine ih _ (Or.inr ?_)
        rw [fetchToolStep_other oracle acc u t hu]
        exact h

/-- One loop iteration preserves agreement of the two runs away from the
perturbed tool `t`. -/
theorem fetchToolStep_congr (f g : String → Except String Json) (t : String)
    (hfg : ∀ u, u ≠ t → f u = g u) (u : String)
    (acc1 acc2 : List (String × Json))
    (hacc : ∀ k, k ≠ t → acc1.lookup k = acc2.lookup k) :
    ∀ k, k ≠ t →
      (fetchToolStep f acc1 u).lookup k = (fetchToolStep g acc2 u).lookup k := by
  intro k hk
  by_cases hu : u = t
  · subst hu
    rw [fetchToolStep_other f acc1 u k (Ne.symm hk),
      fetchToolStep_other g acc2 u k (Ne.symm hk)]
    exact hacc k hk
  · have hfu : f u = g u := hfg u hu
    have hins : ∀ (key : String) (v : Json),
        (dictInsert acc1 key v).lookup k = (dictInsert acc2 key v).lookup k := by
      intro key v
      by_cases hkey : k = key
      · subst hkey
        rw [lookup_dictInsert_self, lookup_dictInsert_self]
      · rw [lookup_dictInsert_other _ _ _ _ hkey,
          lookup_dictInsert_other _ _ _ _ hkey]
        exact hacc k hk
    rw [fetchToolStep, fetchToolStep, ← hfu]
    by_cases hnet : u ∈ netTools
    · rw [if_pos hnet, if_pos hnet]
      cases f u <;> exact hins _ _
    · rw [if_neg hnet, if_neg hnet]
      by_cases hd : u = "drive"
      · rw [if_pos hd, if_pos hd]
        exact hins _ _
      · rw [if_neg hd, if_neg hd]
        by_cases hsl : u = "slack"
        · rw [if_pos hsl, if_pos hsl]
          exact hins _ _
        · rw [if_neg hsl, if_neg hsl]
          exact hacc k hk

/-- Two runs whose oracles differ only at tool `t` agree on every other
key across the whole loop. -/
theorem foldl_fetch_congr (f g : String → Except String Json) (t : String)
    (hfg : ∀ u, u ≠ t → f u = g u) :
    ∀ (tools : List String) (acc1 acc2 : List (String × Json)),
      (∀ k, k ≠ t → acc1.lookup k = acc2.lookup k) →
      ∀ k, k ≠ t →
        ((tools.foldl (fetchToolStep f) acc1).lookup k) =
          ((tools.foldl (fetchToolStep g) acc2).lookup k) := by
  intro tools
  induction tools with
  | nil => intro acc1 acc2 hacc k hk; exact hacc k hk
  | cons u rest ih =>
    intro acc1 acc2 hacc k hk
    rw [List.foldl_cons, List.foldl_cons]
    exact ih _ _ (fetchToolStep_congr f g t hfg u acc1 acc2 hacc) k hk

/-- Claim C4 is false as stated: an unknown tool name matches no branch
of the `if/elif` chain and is silently dropped — `fetch(["sports"], …)`
returns an empty dict with no `"sports"` key at all. -/
theorem tool_fanout_cex : ¬ ToolFanoutClaim := by
  intro h
  have hm := h ["sports"] (fun _ => Except.ok Json.null) "sports"
    (List.mem_singleton.mpr rfl)
  have hempty : fetchToolData ["sports"] (fun _ => Except.ok Json.null) = [] := rfl
  rw [hempty] at hm
  simp at hm

/-- C4, amended: every *known* requested tool (`github`, `crypto`,
`weather`, `hackernews`, `drive`, `slack`) gets exactly its own entry —
the awaited payload, or `{"error": str(e)}` when its call raises — and
perturbing one tool's outcome (e.g. making it fail) changes no other
requested tool's entry and aborts nothing; unknown names are silently
omitted rather than reported. -/
theorem fetch_tool_data_isolated (tools : List String)
    (f g : String → Except String Json) (t : String)
    (hmem : t ∈ tools) (hknown : t ∈ knownTools)
    (hfg : ∀ u, u ≠ t → f u = g u) :
    (fetchToolData tools f).lookup t = some (toolValue f t) ∧
    (∀ e, f t = Except.error e → t ∈ netTools →
      (fetchToolData tools f).lookup t = some (toolErrorObj e)) ∧
    (∀ k, k ≠ t →
      (fetchToolData tools f).lookup k = (fetchToolData tools g).lookup k) := by
  refine ⟨foldl_fetch_lookup f t hknown tools [] (Or.inl hmem), ?_, ?_⟩
  · intro e he hnet
    rw [fetchToolData, foldl_fetch_lookup f t hknown tools [] (Or.inl hmem),
      toolValue, if_pos hnet, he]
  · intro k hk
    exact foldl_fetch_congr f g t hfg tools [] [] (fun _ _ => rfl) k hk

/-- Witness for `fetch_tool_data_isolated`: request
`["crypto", "weather", "sports"]` with `crypto` configured to raise
`"boom"` under `f` and to succeed under `g`. -/
theorem fetch_tool_data_isolated_witness :
    (fetchToolData ["crypto", "weather", "sports"]
        (fun u => if u = "crypto" then Except.error "boom"
          else Except.ok (Json.num 1))).lookup "crypto" =
      some (toolValue
        (fun u => if u = "crypto" then Except.error "boom"
          else Except.ok (Json.num 1)) "crypto") ∧
    (∀ e, (fun u => if u = "crypto" then Except.error "boom"
          else Except.ok (Json.num 1)) "crypto" = Except.error e →
        "crypto" ∈ netTools →
      (fetchToolData ["crypto", "weather", "sports"]
          (fun u => if u = "crypto" then Except.error "boom"
            else Except.ok (Json.num 1))).lookup "crypto" =
        some (toolErrorObj e)) ∧
    (∀ k, k ≠ "crypto" →
      (fetchToolData ["crypto", "weather", "sports"]
          (fun u => if u = "crypto" then Except.error "boom"
            else Except.ok (Json.num 1))).lookup k =
        (fetchToolData ["crypto", "weather", "sports"]
          (fun u => if u = "crypto" then Except.ok (Json.num 2)
            else Except.ok (Json.num 1))).lookup k) :=
  fetch_tool_data_isolated ["crypto", "weather", "sports"]
    (fun u => if u = "crypto" then Except.error "boom"
      else Except.ok (Json.num 1))
    (fun u => if u = "crypto" then Except.ok (Json.num 2)
      else Except.ok (Json.num 1))
    "crypto" (by simp) (by simp [knownTools, netTools])
    (fun u hu => by simp [if_neg hu])

/-! ## Theorems: the query orchestrator (claims C5 and C10) -/

theorem noAssistantWrite_nil : NoAssistantWrite [] := by
  intro cid c hmem
  exact absurd hmem (List.not_mem_nil _)

theorem noAssistantWrite_append (l1 l2 : List Ev)
    (h1 : NoAssistantWrite l1) (h2 : NoAssistantWrite l2) :
    NoAssistantWrite (l1 ++ l2) := by
  intro cid c hmem
  rcases List.mem_append.mp hmem with h | h
  · exact h1 cid c h
  · exact h2 cid c h

theorem noAssistantWrite_ite (b : Prop) [Decidable b] (l1 l2 : List Ev)
    (h1 : NoAssistantWrite l1) (h2 : NoAssistantWrite l2) :
    NoAssistantWrite (if b then l1 else l2) := by
  split
  · exact h1
  · exact h2

/-- Resolving the conversation id writes no message at all. -/
theorem noAssistantWrite_resolve (rc : Option String) (newId : String) :
    NoAssistantWrite (resolveCid rc newId).2 := by
  intro cid c hmem
  rcases rc with _ | s
  · simp [resolveCid] at hmem
  · rw [resolveCid] at hmem
    split at hmem <;> simp at hmem

/-- No assistant turn is persisted anywhere before the generation call:
the shared prefix of both endpoints contains the user write and no
assistant write. -/
theorem noAssistantWrite_prelude (req : ChatRequest) (newId : String)
    (ws : Bool) : NoAssistantWrite (chatPrelude req newId ws) := by
  rw [chatPrelude]
  refine noAssistantWrite_append _ _
    (noAssistantWrite_append _ _
      (noAssistantWrite_append _ _
        (noAssistantWrite_append _ _
          (noAssistantWrite_append _ _ (noAssistantWrite_resolve _ _) ?_) ?_)
        ?_) ?_) ?_
  · intro cid c hmem
    simp at hmem
  · exact noAssistantWrite_ite _ _ _ (by intro cid c hmem; simp at hmem)
      noAssistantWrite_nil
  · refine noAssistantWrite_ite _ _ _ noAssistantWrite_nil ?_
    intro cid c hmem
    rcases List.mem_cons.mp hmem with h | h
    · exact Ev.noConfusion h
    · revert h
      split <;> intro h <;> simp at h
  · exact noAssistantWrite_ite _ _ _ (by intro cid c hmem; simp at hmem)
      noAssistantWrite_nil
  · intro cid c hmem
    simp at hmem

/-- Token frames never persist anything. -/
theorem noAssistantWrite_tokens (toks : List String) :
    NoAssistantWrite (toks.map Ev.tokenSend) := by
  intro cid c hmem
  rcases List.mem_map.mp hmem with ⟨t, _, ht⟩
  exact Ev.noConfusion ht

/-- The prelude ends with the generation call and already carries the
user write. -/
theorem prelude_split (req : ChatRequest) (newId : String) (ws : Bool) :
    ∃ pre, chatPrelude req newId ws = pre ++ [Ev.genCall] ∧
      Ev.addMsg (resolveCid req.conversation_id newId).1 "user" req.message
        ∈ pre ∧ NoAssistantWrite pre := by
  refine ⟨(resolveCid req.conversation_id newId).2 ++
    [Ev.readHistory (resolveCid req.conversation_id newId).1 10,
     Ev.addMsg (resolveCid req.conversation_id newId).1 "user" req.message] ++
    (if req.use_documents then [Ev.searchDocs req.message] else []) ++
    (if req.tools.isEmpty then []
     else Ev.fetchTools req.tools ::
       (if ws then [Ev.wsSend "api_data"] else [])) ++
    (if ws then [Ev.wsSend "start"] else []), ?_, ?_, ?_⟩
  · rw [chatPrelude]
  · simp
  · intro cid c hmem
    have : Ev.addMsg cid "assistant" c ∈ chatPrelude req newId ws := by
      rw [chatPrelude]
      simp only [List.append_assoc, List.mem_append] at hmem ⊢
      tauto
    exact noAssistantWrite_prelude req newId ws cid c this

/-- C5: in the single-shot endpoint and in one websocket iteration, the
user message is persisted strictly before the generation call; the
assistant message is persisted only after generation completes — for a
stream, only after the final token frame — and a stream cancelled before
its terminal token persists no assistant message at all. -/
theorem persistence_order (req wreq : ChatRequest) (newId wNewId : String)
    (is_local : Bool) (out : HttpOutcome) (toks : List String) (k : Nat) :
    (∃ pre, chatPrelude req newId false = pre ++ [Ev.genCall] ∧
      Ev.addMsg (resolveCid req.conversation_id newId).1 "user" req.message
        ∈ pre ∧ NoAssistantWrite pre) ∧
    (∃ pre, chatPrelude wreq wNewId true = pre ++ [Ev.genCall] ∧
      Ev.addMsg (resolveCid wreq.conversation_id wNewId).1 "user" wreq.message
        ∈ pre ∧ NoAssistantWrite pre) ∧
    (chat_query req newId is_local out).1 = chatPrelude req newId false ++
      (match generate is_local out with
       | .error _ => []
       | .ok s =>
         [Ev.addMsg (resolveCid req.conversation_id newId).1 "assistant" s,
          Ev.respond s]) ∧
    (websocket_iter wreq wNewId (StreamOutcome.completed toks)).1 =
      chatPrelude wreq wNewId true ++ toks.map Ev.tokenSend ++
        [Ev.addMsg (resolveCid wreq.conversation_id wNewId).1 "assistant"
          (String.join toks), Ev.wsSend "end"] ∧
    (k < toks.length →
      NoAssistantWrite
        (websocket_iter wreq wNewId (StreamOutcome.disconnected k toks)).1) := by
  refine ⟨prelude_split req newId false, prelude_split wreq wNewId true,
    ?_, ?_, ?_⟩
  · rw [chat_query]
    cases generate is_local out <;> simp
  · rw [websocket_iter]
  · intro hk
    rw [websocket_iter]
    simp only [if_pos hk]
    intro cid c hmem
    rcases List.mem_append.mp hmem with h | h
    · exact noAssistantWrite_prelude wreq wNewId true cid c h
    · exact noAssistantWrite_tokens _ cid c h

/-- Witness for `persistence_order` at a concrete request, a concrete
200 reply, and a stream of two tokens cancelled after the first. -/
theorem persistence_order_witness :
    (∃ pre, chatPrelude ⟨"hi", true, [], none⟩ "c1" false =
        pre ++ [Ev.genCall] ∧
      Ev.addMsg (resolveCid (none : Option String) "c1").1 "user" "hi" ∈ pre ∧
      NoAssistantWrite pre) ∧
    (∃ pre, chatPrelude ⟨"yo", false, ["crypto"], some "w"⟩ "c2" true =
        pre ++ [Ev.genCall] ∧
      Ev.addMsg (resolveCid (some "w") "c2").1 "user" "yo" ∈ pre ∧
      NoAssistantWrite pre) ∧
    (chat_query ⟨"hi", true, [], none⟩ "c1" true
        (HttpOutcome.response 200 (some (Json.obj [("content", Json.str "ok")])) "") |>.1) =
      chatPrelude ⟨"hi", true, [], none⟩ "c1" false ++
      (match generate true (HttpOutcome.response 200
          (some (Json.obj [("content", Json.str "ok")])) "") with
       | .error _ => []
       | .ok s =>
         [Ev.addMsg (resolveCid (none : Option String) "c1").1 "assistant" s,
          Ev.respond s]) ∧
    (websocket_iter ⟨"yo", false, ["crypto"], some "w"⟩ "c2"
        (StreamOutcome.completed ["a", "b"]) |>.1) =
      chatPrelude ⟨"yo", false, ["crypto"], some "w"⟩ "c2" true ++
        ["a", "b"].map Ev.tokenSend ++
        [Ev.addMsg (resolveCid (some "w") "c2").1 "assistant"
          (String.join ["a", "b"]), Ev.wsSend "end"] ∧
    (1 < (["a", "b"] : List String).length →
      NoAssistantWrite
        (websocket_iter ⟨"yo", false, ["crypto"], some "w"⟩ "c2"
          (StreamOutcome.disconnected 1 ["a", "b"])).1) :=
  persistence_order ⟨"hi", true, [], none⟩ ⟨"yo", false, ["crypto"], some "w"⟩
    "c1" "c2" true
    (HttpOutcome.response 200 (some (Json.obj [("content", Json.str "ok")])) "")
    ["a", "b"] 1

/-- C10: when a cloud-mode generation fails — any non-200 reply or a
transport error — the `json.dumps({"error": ...})` string `generate`
returns is persisted verbatim as the assistant turn of the conversation
and returned as the response text, so history can contain error blobs as
assistant messages. -/
theorem error_blob_persisted (req : ChatRequest) (newId : String)
    (status : Nat) (body : Option Json) (text msg : String)
    (h : status ≠ 200) :
    (Ev.addMsg (resolveCid req.conversation_id newId).1 "assistant"
        (dumpsVal (Json.obj [("error", cloudErrorBody body text)])) ∈
      (chat_query req newId false (HttpOutcome.response status body text)).1 ∧
     (chat_query req newId false (HttpOutcome.response status body text)).2 =
       some (dumpsVal (Json.obj [("error", cloudErrorBody body text)]))) ∧
    (Ev.addMsg (resolveCid req.conversation_id newId).1 "assistant"
        (dumpsVal (Json.obj [("error", Json.str msg)])) ∈
      (chat_query req newId false (HttpOutcome.transportError msg)).1 ∧
     (chat_query req newId false (HttpOutcome.transportError msg)).2 =
       some (dumpsVal (Json.obj [("error", Json.str msg)]))) := by
  have hg1 : generate false (HttpOutcome.response status body text) =
      Except.ok (dumpsVal (Json.obj [("error", cloudErrorBody body text)])) := by
    simp only [generate]
    rw [if_neg (by simp : ¬ false = true), if_pos h]
  have hg2 : generate false (HttpOutcome.transportError msg) =
      Except.ok (dumpsVal (Json.obj [("error", Json.str msg)])) := rfl
  constructor
  · rw [chat_query, hg1]
    exact ⟨by simp, rfl⟩
  · rw [chat_query, hg2]
    exact ⟨by simp, rfl⟩

/-- Witness for `error_blob_persisted` at a concrete request, a 500 reply
whose body parses to `{"detail": "boom"}`, and a transport error
`"unreachable"`. -/
theorem error_blob_persisted_witness :
    (Ev.addMsg (resolveCid (some "conv") "n").1 "assistant"
        (dumpsVal (Json.obj [("error",
          cloudErrorBody (some (Json.obj [("detail", Json.str "boom")])) "ISE")])) ∈
      (chat_query ⟨"q", false, [], some "conv"⟩ "n" false
        (HttpOutcome.response 500
          (some (Json.obj [("detail", Json.str "boom")])) "ISE")).1 ∧
     (chat_query ⟨"q", false, [], some "conv"⟩ "n" false
        (HttpOutcome.response 500
          (some (Json.obj [("detail", Json.str "boom")])) "ISE")).2 =
       some (dumpsVal (Json.obj [("error",
         cloudErrorBody (some (Json.obj [("detail", Json.str "boom")])) "ISE")]))) ∧
    (Ev.addMsg (resolveCid (some "conv") "n").1 "assistant"
        (dumpsVal (Json.obj [("error", Json.str "unreachable")])) ∈
      (chat_query ⟨"q", false, [], some "conv"⟩ "n" false
        (HttpOutcome.transportError "unreachable")).1 ∧
     (chat_query ⟨"q", false, [], some "conv"⟩ "n" false
        (HttpOutcome.transportError "unreachable")).2 =
       some (dumpsVal (Json.obj [("error", Json.str "unreachable")]))) :=
  error_blob_persisted ⟨"q", false, [], some "conv"⟩ "n" 500
    (some (Json.obj [("detail", Json.str "boom")])) "ISE" "unreachable"
    (by omega)

end AKC
